import Mathlib

/-!
Shallow embedding of the realtime messaging server:
the storage layer (`MemStorage` from the in-memory implementation,
`MongoState` abstracting the MongoDB implementation) and the
WebSocket event router of `registerRoutes`.

Dates (`new Date()`) are modelled as a `Nat` logical clock passed
explicitly (`now`).  JavaScript `Map<number, _>` objects are modelled as
lists in insertion order: `Map.set` replaces in place when the key is
present (preserving insertion position, as JS maps do) and appends
otherwise; `Map.get` is `find?` on the key; `Map.delete` removes the
keyed entry; `Map.values()` iterates in insertion order.
-/

structure User where
  id : Nat
  username : String
  password : String
  displayName : String
  avatar : Option String
  isOnline : Bool
  lastSeen : Nat
deriving DecidableEq, Repr

structure Contact where
  id : Nat
  userId : Nat
  contactId : Nat
deriving DecidableEq, Repr

structure Message where
  id : Nat
  senderId : Nat
  receiverId : Nat
  content : String
  sentAt : Nat
  isRead : Bool
deriving DecidableEq, Repr

structure InsertUser where
  username : String
  password : String
  displayName : String
deriving DecidableEq, Repr

structure InsertContact where
  userId : Nat
  contactId : Nat
deriving DecidableEq, Repr

structure InsertMessage where
  senderId : Nat
  receiverId : Nat
  content : String
deriving DecidableEq, Repr

/-- Model of `Map.get(k)` on a list modelling a JS `Map` keyed by `key`. -/
def mapGet {α : Type} (key : α → Nat) (l : List α) (k : Nat) : Option α :=
  l.find? (fun v => key v == k)

/-- Model of `Map.set(key x, x)`: replace in place if the key is present, else append. -/
def mapSet {α : Type} (key : α → Nat) (l : List α) (x : α) : List α :=
  if l.any (fun v => key v == key x) then
    l.map (fun v => if key v == key x then x else v)
  else l ++ [x]

/-- Model of `Map.delete(k)`: remove entries with the given key. -/
def mapDelete {α : Type} (key : α → Nat) (l : List α) (k : Nat) : List α :=
  l.filter (fun v => key v != k)

/-- State of `MemStorage`: the three JS maps (as insertion-ordered lists)
and the three id counters. -/
structure MemStorage where
  users : List User
  contacts : List Contact
  messages : List Message
  currentUserId : Nat
  currentContactId : Nat
  currentMessageId : Nat
deriving DecidableEq, Repr

def initMem : MemStorage :=
  { users := [], contacts := [], messages := [],
    currentUserId := 1, currentContactId := 1, currentMessageId := 1 }

/-- Source `MemStorage.getUser`: `this.users.get(id)`. -/
def memGetUser (s : MemStorage) (id : Nat) : Option User :=
  mapGet User.id s.users id

/-- Source `MemStorage.getUserByUsername`: first user (in insertion order) with the
given username. -/
def memGetUserByUsername (s : MemStorage) (username : String) : Option User :=
  s.users.find? (fun u => u.username == username)

/-- Source `MemStorage.createUser`: fresh id from the counter, `isOnline: false`,
`avatar: null`, `lastSeen: new Date()`. -/
def memCreateUser (s : MemStorage) (iu : InsertUser) (now : Nat) :
    User × MemStorage :=
  let id := s.currentUserId
  let user : User :=
    { id := id, username := iu.username, password := iu.password,
      displayName := iu.displayName, avatar := none,
      isOnline := false, lastSeen := now }
  (user, { s with users := mapSet User.id s.users user,
                  currentUserId := id + 1 })

/-- Source `MemStorage.updateUserStatus`: sets `isOnline`; refreshes `lastSeen`
only when the user goes offline (`if (!isOnline) updatedUser.lastSeen = new Date()`). -/
def memUpdateUserStatus (s : MemStorage) (id : Nat) (isOnline : Bool)
    (now : Nat) : Option User × MemStorage :=
  match memGetUser s id with
  | none => (none, s)
  | some user =>
    let updated : User :=
      { user with isOnline := isOnline,
                  lastSeen := if isOnline then user.lastSeen else now }
    (some updated, { s with users := mapSet User.id s.users updated })

/-- Source `MemStorage.updateUserLastSeen`. -/
def memUpdateUserLastSeen (s : MemStorage) (id : Nat) (now : Nat) :
    Option User × MemStorage :=
  match memGetUser s id with
  | none => (none, s)
  | some user =>
    let updated : User := { user with lastSeen := now }
    (some updated, { s with users := mapSet User.id s.users updated })

/-- Source `MemStorage.getContacts`: contact edges owned by `userId`, resolved to
users (missing users dropped by the `filter(Boolean)`). -/
def memGetContacts (s : MemStorage) (userId : Nat) : List User :=
  (s.contacts.filter (fun c => c.userId == userId)).filterMap
    (fun c => memGetUser s c.contactId)

/-- Source `MemStorage.addContact`: always allocates a fresh edge; there is no
check for an existing (userId, contactId) pair. -/
def memAddContact (s : MemStorage) (ic : InsertContact) :
    Contact × MemStorage :=
  let id := s.currentContactId
  let contact : Contact := { id := id, userId := ic.userId, contactId := ic.contactId }
  (contact, { s with contacts := mapSet Contact.id s.contacts contact,
                     currentContactId := id + 1 })

/-- Source `MemStorage.removeContact`: delete the first matching edge, report
whether one was found. -/
def memRemoveContact (s : MemStorage) (userId contactId : Nat) :
    Bool × MemStorage :=
  match s.contacts.find? (fun c => c.userId == userId && c.contactId == contactId) with
  | none => (false, s)
  | some c => (true, { s with contacts := mapDelete Contact.id s.contacts c.id })

/-- Stable insertion step for a descending sort on a `Nat` key: `x` is
placed before the first element with a strictly smaller key, i.e. after
every element whose key is ≥ its own — the order a stable JS
`sort((a, b) => key b - key a)` produces. -/
def insertDesc {α : Type} (key : α → Nat) (x : α) : List α → List α
  | [] => [x]
  | y :: ys => if key y < key x then x :: y :: ys else y :: insertDesc key x ys

/-- Stable descending sort by a `Nat` key (JS `Array.prototype.sort` with
comparator `(a, b) => key b - key a`; JS sorts are stable). -/
def sortDescBy {α : Type} (key : α → Nat) (l : List α) : List α :=
  l.foldl (fun acc x => insertDesc key x acc) []

/-- Stable insertion step for an ascending sort on a `Nat` key. -/
def insertAsc {α : Type} (key : α → Nat) (x : α) : List α → List α
  | [] => [x]
  | y :: ys => if key x < key y then x :: y :: ys else y :: insertAsc key x ys

/-- Stable ascending sort by a `Nat` key (JS comparator `(a, b) => key a - key b`). -/
def sortAscBy {α : Type} (key : α → Nat) (l : List α) : List α :=
  l.foldl (fun acc x => insertAsc key x acc) []

/-- Does the message involve `u` as sender or receiver? -/
def involves (u : Nat) (m : Message) : Bool :=
  m.senderId == u || m.receiverId == u

/-- The other participant of a message from `u`'s point of view:
`message.senderId === userId ? message.receiverId : message.senderId`. -/
def partnerOf (u : Nat) (m : Message) : Nat :=
  if m.senderId == u then m.receiverId else m.senderId

/-- Source `MemStorage.getMessages`: both directions between the pair, sorted by
ascending `sentAt`. -/
def memGetMessages (s : MemStorage) (userId contactId : Nat) : List Message :=
  sortAscBy Message.sentAt
    (s.messages.filter (fun m =>
      (m.senderId == userId && m.receiverId == contactId) ||
      (m.senderId == contactId && m.receiverId == userId)))

/-- Source `MemStorage.createMessage`: fresh id, `sentAt: new Date()`, `isRead: false`. -/
def memCreateMessage (s : MemStorage) (im : InsertMessage) (now : Nat) :
    Message × MemStorage :=
  let id := s.currentMessageId
  let message : Message :=
    { id := id, senderId := im.senderId, receiverId := im.receiverId,
      content := im.content, sentAt := now, isRead := false }
  (message, { s with messages := mapSet Message.id s.messages message,
                     currentMessageId := id + 1 })

/-- Source `MemStorage.markMessageAsRead`: replace the message (if found) by a
copy with `isRead := true` and return the copy. -/
def memMarkMessageAsRead (s : MemStorage) (messageId : Nat) :
    Option Message × MemStorage :=
  match mapGet Message.id s.messages messageId with
  | none => (none, s)
  | some m =>
    let updated : Message := { m with isRead := true }
    (some updated, { s with messages := mapSet Message.id s.messages updated })

/-- Accumulator pass keeping the first occurrence of each key. -/
def firstDedupAux (seen : List Nat) : List Nat → List Nat
  | [] => []
  | x :: xs =>
    if seen.contains x then firstDedupAux seen xs
    else x :: firstDedupAux (x :: seen) xs

/-- Keys of a JS `Map` built by first-occurrence insertion order
(`conversationMap` in `MemStorage.getRecentConversations`). -/
def firstDedup (l : List Nat) : List Nat := firstDedupAux [] l

/-- Messages where the user is either sender or receiver
(`userMessages` in `MemStorage.getRecentConversations`). -/
def recentUserMessages (s : MemStorage) (u : Nat) : List Message :=
  s.messages.filter (fun m => involves u m)

/-- Conversation entry for one group of `MemStorage.getRecentConversations`:
the group's participant resolved via `getUser` (unknown users skipped) and
the group's most recent message (stable descending sort, first element). -/
def recentEntryFor (s : MemStorage) (u cid : Nat) : Option (User × Message) :=
  match memGetUser s cid with
  | none => none
  | some contact =>
    match sortDescBy Message.sentAt
        ((recentUserMessages s u).filter (fun m => partnerOf u m == cid)) with
    | [] => none
    | lm :: _ => some (contact, lm)

/-- Unsorted conversation entries of `MemStorage.getRecentConversations`:
the user's messages grouped by the other participant (groups in
first-occurrence order, as `conversationMap` key order), one entry per
group whose participant exists as a user. -/
def recentEntries (s : MemStorage) (u : Nat) : List (User × Message) :=
  (firstDedup ((recentUserMessages s u).map (partnerOf u))).filterMap
    (recentEntryFor s u)

/-- Source `MemStorage.getRecentConversations`: the conversation entries
sorted by descending `lastMessage.sentAt`.  No contact-edge check is
performed anywhere in it. -/
def memGetRecentConversations (s : MemStorage) (u : Nat) :
    List (User × Message) :=
  sortDescBy (fun e => e.2.sentAt) (recentEntries s u)

/-!
Abstraction of `MongoDBStorage`.  MongoDB `ObjectId`s are abstracted to a
fresh-`Nat` source (`nextOid`); `findOne` returns the first matching
document in insertion (natural) order; the `mapMongo*` helpers translate
`_id` to the application `id` and are absorbed into the field `id` here.
-/

structure MongoState where
  users : List User
  contacts : List Contact
  messages : List Message
  nextOid : Nat
deriving DecidableEq, Repr

def initMongo : MongoState :=
  { users := [], contacts := [], messages := [], nextOid := 1 }

/-- Source `MongoDBStorage.createUser`: inserts `{...insertUser, _id, isOnline: true,
lastSeen: new Date()}` (no `avatar` field, read back as absent) and returns
the stored document. -/
def mongoCreateUser (s : MongoState) (iu : InsertUser) (now : Nat) :
    User × MongoState :=
  let oid := s.nextOid
  let user : User :=
    { id := oid, username := iu.username, password := iu.password,
      displayName := iu.displayName, avatar := none,
      isOnline := true, lastSeen := now }
  (user, { s with users := s.users ++ [user], nextOid := oid + 1 })

/-- Source `MongoDBStorage.addContact`: returns the existing `(userId, contactId)`
document if one exists, otherwise inserts a fresh one. -/
def mongoAddContact (s : MongoState) (ic : InsertContact) :
    Contact × MongoState :=
  match s.contacts.find? (fun c => c.userId == ic.userId && c.contactId == ic.contactId) with
  | some existing => (existing, s)
  | none =>
    let contact : Contact :=
      { id := s.nextOid, userId := ic.userId, contactId := ic.contactId }
    (contact, { s with contacts := s.contacts ++ [contact], nextOid := s.nextOid + 1 })

/-- Source `MongoDBStorage.updateUserStatus`: `findOneAndUpdate` setting both
`isOnline` and `lastSeen: new Date()` unconditionally. -/
def mongoUpdateUserStatus (s : MongoState) (id : Nat) (isOnline : Bool)
    (now : Nat) : Option User × MongoState :=
  match s.users.find? (fun u => u.id == id) with
  | none => (none, s)
  | some user =>
    let updated : User := { user with isOnline := isOnline, lastSeen := now }
    (some updated,
     { s with users := s.users.map (fun v => if v.id == id then updated else v) })

/-!
The WebSocket part of `registerRoutes` (server/routes, using the default
in-memory `storage`): the `clients` registry (`Map<number, WebSocket>`),
the per-connection `userId` variable, and the `message` / `close`
handlers.  Connections are identified by a `Nat` handle; `readyState ===
WebSocket.OPEN` is modelled by membership in `openc`.  Payload fields that
JavaScript checks for truthiness (`if (userId)`) are modelled with
`Option Nat` where `none` is a missing value and `0` is falsy.
-/

/-- An inbound WebSocket frame after `JSON.parse`: `malformed` stands for
an unparseable frame (the `catch` branch), `unknown` for an unrecognized
`type`. -/
inductive Inbound
  | malformed
  | unknown (ty : String)
  | authenticate (userId : Option Nat)
  | message (receiverId : Nat) (content : String)
  | readReceipt (messageId : Nat)
  | typing (receiverId : Nat) (isTyping : Bool)
deriving DecidableEq, Repr

/-- An outbound WebSocket frame. -/
inductive Outbound
  | statusChange (userId : Nat) (isOnline : Bool)
  | message (m : Message)
  | messageSent (m : Message)
  | readReceipt (messageId : Nat) (readAt : Nat)
  | typing (senderId : Nat) (isTyping : Bool)
deriving DecidableEq, Repr

/-- Server-side mutable state: the storage, the `clients` registry
(userId → connection), the per-connection `userId` variables
(connection → authenticated-as), and the set of open connections. -/
structure ServerState where
  store : MemStorage
  clients : List (Nat × Nat)
  auth : List (Nat × Option Nat)
  openc : List Nat
deriving DecidableEq, Repr

def ServerState.init (store : MemStorage) : ServerState :=
  { store := store, clients := [], auth := [], openc := [] }

/-- Registry lookup `clients.get(u)`. -/
def regGet (clients : List (Nat × Nat)) (u : Nat) : Option Nat :=
  (clients.find? (fun e => e.1 == u)).map (fun e => e.2)

/-- Registry `clients.set(u, c)`. -/
def regSet (clients : List (Nat × Nat)) (u c : Nat) : List (Nat × Nat) :=
  if clients.any (fun e => e.1 == u) then
    clients.map (fun e => if e.1 == u then (u, c) else e)
  else clients ++ [(u, c)]

/-- Registry `clients.delete(u)`. -/
def regDelete (clients : List (Nat × Nat)) (u : Nat) : List (Nat × Nat) :=
  clients.filter (fun e => e.1 != u)

/-- The per-connection `userId` variable of connection `c` (`none` = `null`). -/
def authGet (auth : List (Nat × Option Nat)) (c : Nat) : Option Nat :=
  match auth.find? (fun e => e.1 == c) with
  | some e => e.2
  | none => none

def authSet (auth : List (Nat × Option Nat)) (c : Nat) (v : Option Nat) :
    List (Nat × Option Nat) :=
  if auth.any (fun e => e.1 == c) then
    auth.map (fun e => if e.1 == c then (c, v) else e)
  else auth ++ [(c, v)]

/-- Model of `readyState === WebSocket.OPEN`. -/
def isOpenConn (openc : List Nat) (c : Nat) : Bool :=
  openc.contains c

/-- JavaScript truthiness of the `userId` variable / payload field. -/
def jsTruthy : Option Nat → Bool
  | none => false
  | some n => n != 0

/-- Handler `wss.on('connection')`: fresh connection, `let userId = null`. -/
def stepConnect (st : ServerState) (c : Nat) : ServerState :=
  { st with auth := authSet st.auth c none,
            openc := if isOpenConn st.openc c then st.openc else c :: st.openc }

/-- The `ws.on('message')` handler, returning the new state and the list
of `(target connection, frame)` sends it performs. -/
def stepRecv (st : ServerState) (c : Nat) (inb : Inbound) (now : Nat) :
    ServerState × List (Nat × Outbound) :=
  match inb with
  | .malformed => (st, [])
  | .unknown _ => (st, [])
  | .authenticate uopt =>
    let auth' := authSet st.auth c uopt
    if jsTruthy uopt then
      let u := uopt.getD 0
      let clients' := regSet st.clients u c
      let store' := (memUpdateUserStatus st.store u true now).2
      let outs := clients'.filterMap (fun e =>
        if e.1 ≠ u ∧ isOpenConn st.openc e.2 then
          some (e.2, Outbound.statusChange u true)
        else none)
      ({ st with auth := auth', clients := clients', store := store' }, outs)
    else ({ st with auth := auth' }, [])
  | .message receiverId content =>
    if jsTruthy (authGet st.auth c) then
      let u := (authGet st.auth c).getD 0
      let (m, store') :=
        memCreateMessage st.store
          { senderId := u, receiverId := receiverId, content := content } now
      let recvOut :=
        match regGet st.clients receiverId with
        | some rc =>
          if isOpenConn st.openc rc then [(rc, Outbound.message m)] else []
        | none => []
      ({ st with store := store' }, recvOut ++ [(c, Outbound.messageSent m)])
    else (st, [])
  | .readReceipt messageId =>
    if jsTruthy (authGet st.auth c) then
      let (res, store') := memMarkMessageAsRead st.store messageId
      match res with
      | some m =>
        let outs :=
          match regGet st.clients m.senderId with
          | some sc =>
            if isOpenConn st.openc sc then
              [(sc, Outbound.readReceipt messageId now)]
            else []
          | none => []
        ({ st with store := store' }, outs)
      | none => ({ st with store := store' }, [])
    else (st, [])
  | .typing receiverId isTyping =>
    if jsTruthy (authGet st.auth c) then
      let u := (authGet st.auth c).getD 0
      let outs :=
        match regGet st.clients receiverId with
        | some rc =>
          if isOpenConn st.openc rc then [(rc, Outbound.typing u isTyping)] else []
        | none => []
      (st, outs)
    else (st, [])

/-- The `ws.on('close')` handler: the connection is closed first, then
`clients.delete(userId)` runs unconditionally (no check that the registry
still maps `userId` to this connection), the user is marked offline and
the offline status is broadcast to the remaining open connections. -/
def stepClose (st : ServerState) (c : Nat) (now : Nat) :
    ServerState × List (Nat × Outbound) :=
  let openc' := st.openc.erase c
  if jsTruthy (authGet st.auth c) then
    let u := (authGet st.auth c).getD 0
    let clients' := regDelete st.clients u
    let store' := (memUpdateUserStatus st.store u false now).2
    let outs := clients'.filterMap (fun e =>
      if isOpenConn openc' e.2 then some (e.2, Outbound.statusChange u false)
      else none)
    ({ store := store', clients := clients', auth := st.auth, openc := openc' }, outs)
  else ({ st with openc := openc' }, [])

/-- Transport-level events driving the server model. -/
inductive Event
  | connect (c : Nat)
  | recv (c : Nat) (inb : Inbound) (now : Nat)
  | close (c : Nat) (now : Nat)
deriving DecidableEq, Repr

def stepEvent (st : ServerState) : Event → ServerState × List (Nat × Outbound)
  | .connect c => (stepConnect st c, [])
  | .recv c inb now => stepRecv st c inb now
  | .close c now => stepClose st c now

def runEvents (st : ServerState) : List Event → ServerState
  | [] => st
  | e :: es => runEvents (stepEvent st e).1 es

/-- Result of the `POST /api/messages` route. -/
inductive ApiResp
  | created (m : Message)
  | badRequest (reason : String)
  | notFound (reason : String)
deriving DecidableEq, Repr

/-- Route `POST /api/messages` for an authenticated `senderId`:
`!receiverId || !content` → 400; unknown receiver → 404; otherwise
persist and return 201 with the message.  `none`/`0`/`""` are the falsy
payload values. -/
def apiPostMessages (s : MemStorage) (senderId : Nat)
    (receiverId : Option Nat) (content : Option String) (now : Nat) :
    ApiResp × MemStorage :=
  match receiverId, content with
  | some rid, some cont =>
    if rid = 0 ∨ cont = "" then
      (.badRequest "Receiver ID and content are required", s)
    else
      match memGetUser s rid with
      | none => (.notFound "Receiver not found", s)
      | some _ =>
        let (m, s') :=
          memCreateMessage s { senderId := senderId, receiverId := rid, content := cont } now
        (.created m, s')
  | _, _ => (.badRequest "Receiver ID and content are required", s)

/-- The mutating `MemStorage` operations of the `IStorage` interface
(read-only operations do not change the state). -/
inductive StoreOp
  | createUser (iu : InsertUser)
  | updateUserStatus (id : Nat) (isOnline : Bool)
  | updateUserLastSeen (id : Nat)
  | addContact (ic : InsertContact)
  | removeContact (userId contactId : Nat)
  | createMessage (im : InsertMessage)
  | markMessageAsRead (messageId : Nat)
deriving DecidableEq, Repr

def applyOp (s : MemStorage) (op : StoreOp) (now : Nat) : MemStorage :=
  match op with
  | .createUser iu => (memCreateUser s iu now).2
  | .updateUserStatus id isOnline => (memUpdateUserStatus s id isOnline now).2
  | .updateUserLastSeen id => (memUpdateUserLastSeen s id now).2
  | .addContact ic => (memAddContact s ic).2
  | .removeContact userId contactId => (memRemoveContact s userId contactId).2
  | .createMessage im => (memCreateMessage s im now).2
  | .markMessageAsRead messageId => (memMarkMessageAsRead s messageId).2

/-- States of `MemStorage` reachable from the fresh store through the
interface operations. -/
inductive ReachableMem : MemStorage → Prop
  | init : ReachableMem initMem
  | step (s : MemStorage) (op : StoreOp) (now : Nat) :
      ReachableMem s → ReachableMem (applyOp s op now)

/-!
Concrete scenario states used by witnesses and counterexamples.
-/

/-- Store containing only Alice (id 1), created at time 0. -/
def storeA : MemStorage := (memCreateUser initMem ⟨"alice", "pw", "Alice"⟩ 0).2

/-- Store containing Alice (id 1) and Bob (id 2). -/
def storeAB : MemStorage := (memCreateUser storeA ⟨"bob", "pw", "Bob"⟩ 0).2

/-- Store with Alice, Bob and one message 1 → 2 at time 3; no contact edges. -/
def storeABmsg : MemStorage := (memCreateMessage storeAB ⟨1, 2, "hi"⟩ 3).2

/-- Store containing only Alice (id 1), created at time 5 (so `lastSeen = 5`). -/
def storeA5 : MemStorage := (memCreateUser initMem ⟨"alice", "pw", "Alice"⟩ 5).2

/-- Reachable store: Alice created at time 0. -/
def rstoreA : MemStorage := applyOp initMem (StoreOp.createUser ⟨"alice", "pw", "Alice"⟩) 0

/-- Reachable store: Alice plus a message 1 → 2 at time 3. -/
def rstoreB : MemStorage := applyOp rstoreA (StoreOp.createMessage ⟨1, 2, "hi"⟩) 3

/-- Reachable store: the message of `rstoreB` marked read at time 4. -/
def rstoreC : MemStorage := applyOp rstoreB (StoreOp.markMessageAsRead 1) 4

/-- Server state after Alice and Bob both connect and authenticate
(connections 11 and 12), over `storeAB`. -/
def srvAB : ServerState :=
  runEvents (ServerState.init storeAB)
    [Event.connect 11, Event.recv 11 (Inbound.authenticate (some 1)) 1,
     Event.connect 12, Event.recv 12 (Inbound.authenticate (some 2)) 2]

/-- Server state after connection 11 authenticates as user 1, connection 12
authenticates as user 1 as well (replacing the registry entry), all over
`storeAB`. -/
def srvStale : ServerState :=
  runEvents (ServerState.init storeAB)
    [Event.connect 11, Event.recv 11 (Inbound.authenticate (some 1)) 1,
     Event.connect 12, Event.recv 12 (Inbound.authenticate (some 1)) 2]

/-- Server state over `storeA` after connection 10 authenticates as user 1. -/
def srvA0 : ServerState :=
  runEvents (ServerState.init storeA)
    [Event.connect 10, Event.recv 10 (Inbound.authenticate (some 1)) 1]

/-- Handcrafted state for the close-handler witness: connection 11's variable
says user 1, but the registry maps user 1 to the newer connection 12. -/
def stW1 : ServerState :=
  { store := storeAB, clients := [(1, 12)],
    auth := [(11, some 1), (12, some 1)], openc := [11, 12] }

/-- Handcrafted state for the message-delivery witness: user 1 authenticated
on connection 10, user 2 live on connection 20. -/
def stW3 : ServerState :=
  { store := storeAB, clients := [(2, 20)], auth := [(10, some 1)],
    openc := [20, 10] }

/-- Handcrafted state for the receiver-validation witness: user 1
authenticated on connection 10, no user 2 in the store. -/
def stW7 : ServerState :=
  { store := storeA, clients := [], auth := [(10, some 1)], openc := [10] }

/-- Handcrafted state for the authenticate witness: user 2 live on
connection 20, user 1 about to authenticate on connection 10. -/
def stW8 : ServerState :=
  { store := storeAB, clients := [(2, 20)], auth := [], openc := [20] }

/-- Handcrafted state for the read-receipt witness: message 1 → 2 stored,
its sender live on connection 11, user 2 authenticated on connection 12. -/
def stW10 : ServerState :=
  { store := storeABmsg, clients := [(1, 11)], auth := [(12, some 2)],
    openc := [11, 12] }

/-- Concrete message persisted in the C3 witness scenario. -/
def msgW3 : Message :=
  { id := 1, senderId := 1, receiverId := 2, content := "yo", sentAt := 7,
    isRead := false }

/-!
Helper lemmas about the map/registry model and the sorts.
-/

theorem find?_map_pres {α : Type} (p : α → Bool) (f : α → α)
    (hf : ∀ v, p (f v) = p v) :
    ∀ l : List α, (l.map f).find? p = (l.find? p).map f := by
  intro l
  induction l with
  | nil => rfl
  | cons x xs ih =>
    simp only [List.map_cons, List.find?_cons, hf]
    cases hpx : p x <;> simp [ih]

theorem mapGet_key {α : Type} (key : α → Nat) (l : List α) (k : Nat) (a : α)
    (h : mapGet key l k = some a) : key a = k ∧ a ∈ l := by
  have h1 := List.find?_some h
  have h2 := List.mem_of_find?_eq_some h
  simp only [beq_iff_eq] at h1
  exact ⟨h1, h2⟩

theorem mem_mapSet_self {α : Type} (key : α → Nat) (l : List α) (b : α) :
    b ∈ mapSet key l b := by
  unfold mapSet
  split
  · next h =>
    rw [List.any_eq_true] at h
    obtain ⟨v, hv, hkv⟩ := h
    exact List.mem_map.mpr ⟨v, hv, by simp [hkv]⟩
  · simp

theorem mapSet_eq_append {α : Type} (key : α → Nat) (l : List α) (b : α)
    (h : ∀ v ∈ l, key v ≠ key b) : mapSet key l b = l ++ [b] := by
  unfold mapSet
  have : l.any (fun v => key v == key b) = false := by
    rw [List.any_eq_false]
    intro v hv
    simp [h v hv]
  rw [this]
  simp

theorem mapGet_mapSet_same {α : Type} (key : α → Nat) (l : List α) (k : Nat)
    (a b : α) (h : mapGet key l k = some a) (hb : key b = k) :
    mapGet key (mapSet key l b) k = some b := by
  obtain ⟨hak, hal⟩ := mapGet_key key l k a h
  unfold mapSet
  have hany : l.any (fun v => key v == key b) = true := by
    rw [List.any_eq_true]
    exact ⟨a, hal, by simp [hak, hb]⟩
  rw [hany]
  simp only [if_pos]
  have hpres : ∀ v, ((fun v => key v == k) ((fun v => if key v == key b then b else v) v))
      = (fun v => key v == k) v := by
    intro v
    by_cases hv : key v == key b
    · simp only [hv, if_pos]
      have : key v = key b := by simpa using hv
      simp [hb, this]
    · simp [hv]
  unfold mapGet at h ⊢
  rw [find?_map_pres _ _ hpres, h]
  simp [hak, hb]

theorem regGet_regDelete (clients : List (Nat × Nat)) (u : Nat) :
    regGet (regDelete clients u) u = none := by
  unfold regGet regDelete
  rw [Option.map_eq_none']
  rw [List.find?_eq_none]
  intro e he
  have := List.of_mem_filter he
  simpa using this

theorem mem_insertDesc {α : Type} (key : α → Nat) (x y : α) (l : List α) :
    y ∈ insertDesc key x l ↔ y = x ∨ y ∈ l := by
  induction l with
  | nil => simp [insertDesc]
  | cons z zs ih =>
    unfold insertDesc
    split
    · simp [or_comm, or_assoc, or_left_comm]
    · simp [ih, or_comm, or_assoc, or_left_comm]

theorem perm_insertDesc {α : Type} (key : α → Nat) (x : α) (l : List α) :
    (insertDesc key x l).Perm (x :: l) := by
  induction l with
  | nil => simp [insertDesc]
  | cons z zs ih =>
    unfold insertDesc
    split
    · exact List.Perm.refl _
    · exact (List.Perm.cons z ih).trans (List.Perm.swap x z zs)

theorem pairwise_insertDesc {α : Type} (key : α → Nat) (x : α) (l : List α)
    (h : l.Pairwise (fun a b => key b ≤ key a)) :
    (insertDesc key x l).Pairwise (fun a b => key b ≤ key a) := by
  induction l with
  | nil => simp [insertDesc]
  | cons z zs ih =>
    rw [List.pairwise_cons] at h
    obtain ⟨hz, hzs⟩ := h
    unfold insertDesc
    split
    · next hlt =>
      rw [List.pairwise_cons]
      constructor
      · intro b hb
        rcases List.mem_cons.mp hb with rfl | hb
        · exact Nat.le_of_lt hlt
        · exact Nat.le_trans (hz b hb) (Nat.le_of_lt hlt)
      · exact List.Pairwise.cons hz hzs
    · next hge =>
      rw [List.pairwise_cons]
      constructor
      · intro b hb
        rcases (mem_insertDesc key x b zs).mp hb with rfl | hb
        · exact Nat.le_of_not_lt hge
        · exact hz b hb
      · exact ih hzs

theorem sortDescBy_aux_perm {α : Type} (key : α → Nat) :
    ∀ (l acc : List α),
      (l.foldl (fun acc x => insertDesc key x acc) acc).Perm (acc ++ l) := by
  intro l
  induction l with
  | nil => simp
  | cons x xs ih =>
    intro acc
    simp only [List.foldl_cons]
    refine (ih (insertDesc key x acc)).trans ?_
    refine (List.Perm.append_right xs (perm_insertDesc key x acc)).trans ?_
    exact List.perm_middle.symm

theorem perm_sortDescBy {α : Type} (key : α → Nat) (l : List α) :
    (sortDescBy key l).Perm l := by
  simpa using sortDescBy_aux_perm key l []

theorem mem_sortDescBy {α : Type} (key : α → Nat) (l : List α) (x : α) :
    x ∈ sortDescBy key l ↔ x ∈ l :=
  (perm_sortDescBy key l).mem_iff

theorem sortDescBy_aux_pairwise {α : Type} (key : α → Nat) :
    ∀ (l acc : List α),
      acc.Pairwise (fun a b => key b ≤ key a) →
      (l.foldl (fun acc x => insertDesc key x acc) acc).Pairwise
        (fun a b => key b ≤ key a) := by
  intro l
  induction l with
  | nil => intro acc h; simpa using h
  | cons x xs ih =>
    intro acc h
    simp only [List.foldl_cons]
    exact ih (insertDesc key x acc) (pairwise_insertDesc key x acc h)

theorem pairwise_sortDescBy {α : Type} (key : α → Nat) (l : List α) :
    (sortDescBy key l).Pairwise (fun a b => key b ≤ key a) :=
  sortDescBy_aux_pairwise key l [] (by simp)

theorem mem_firstDedupAux (y : Nat) :
    ∀ (l seen : List Nat), y ∈ firstDedupAux seen l ↔ (y ∈ l ∧ y ∉ seen) := by
  intro l
  induction l with
  | nil => intro seen; simp [firstDedupAux]
  | cons x xs ih =>
    intro seen
    unfold firstDedupAux
    by_cases hc : seen.contains x
    · rw [if_pos hc, ih]
      have hxseen : x ∈ seen := by simpa using hc
      constructor
      · rintro ⟨hy, hns⟩
        exact ⟨List.mem_cons_of_mem x hy, hns⟩
      · rintro ⟨hy, hns⟩
        rcases List.mem_cons.mp hy with rfl | hy
        · exact absurd hxseen hns
        · exact ⟨hy, hns⟩
    · rw [if_neg hc]
      have hxseen : x ∉ seen := by simpa using hc
      rw [List.mem_cons, ih]
      constructor
      · rintro (h | ⟨hy, hns⟩)
        · rw [h]
          exact ⟨List.mem_cons_self x xs, hxseen⟩
        · exact ⟨List.mem_cons_of_mem x hy, fun hs => hns (List.mem_cons_of_mem x hs)⟩
      · rintro ⟨hy, hns⟩
        by_cases hyx : y = x
        · exact Or.inl hyx
        · rcases List.mem_cons.mp hy with rfl | hy
          · exact Or.inl rfl
          · refine Or.inr ⟨hy, fun hs => ?_⟩
            rcases List.mem_cons.mp hs with h | h
            · exact hyx h
            · exact hns h

theorem mem_firstDedup (y : Nat) (l : List Nat) : y ∈ firstDedup l ↔ y ∈ l := by
  unfold firstDedup
  rw [mem_firstDedupAux]
  simp

theorem nodup_firstDedupAux :
    ∀ (l seen : List Nat), (firstDedupAux seen l).Nodup := by
  intro l
  induction l with
  | nil => intro seen; simp [firstDedupAux]
  | cons x xs ih =>
    intro seen
    unfold firstDedupAux
    by_cases hc : seen.contains x
    · rw [if_pos hc]
      exact ih seen
    · rw [if_neg hc]
      rw [List.nodup_cons]
      refine ⟨?_, ih (x :: seen)⟩
      intro hx
      have := (mem_firstDedupAux x xs (x :: seen)).mp hx
      exact this.2 (List.mem_cons_self x seen)

theorem nodup_firstDedup (l : List Nat) : (firstDedup l).Nodup :=
  nodup_firstDedupAux l []

theorem find?_append_none {α : Type} (p : α → Bool) (l l' : List α)
    (h : l.find? p = none) : (l ++ l').find? p = l'.find? p := by
  induction l with
  | nil => rfl
  | cons x xs ih =>
    rw [List.find?_cons] at h
    rw [List.cons_append, List.find?_cons]
    cases hpx : p x
    · rw [hpx] at h
      simpa [hpx] using ih h
    · rw [hpx] at h
      simp at h

theorem find?_append_of_some {α : Type} (p : α → Bool) (l l' : List α) (a : α)
    (h : l.find? p = some a) : (l ++ l').find? p = some a := by
  induction l with
  | nil => simp at h
  | cons x xs ih =>
    rw [List.find?_cons] at h
    rw [List.cons_append, List.find?_cons]
    cases hpx : p x
    · rw [hpx] at h; simpa [hpx] using ih h
    · rw [hpx] at h; simpa [hpx] using h

/-- C5 counterexample: starting from the empty in-memory store, two
`addContact` calls with the same `(ownerId, contactId) = (1, 2)` leave two
contact edges in the store, and the second call returns a fresh edge
(id 2) rather than the existing one (id 1). -/
theorem memAddContact_not_idempotent :
    (memAddContact (memAddContact initMem ⟨1, 2⟩).2 ⟨1, 2⟩).2.contacts.length = 2 ∧
    (memAddContact (memAddContact initMem ⟨1, 2⟩).2 ⟨1, 2⟩).1 ≠
      (memAddContact initMem ⟨1, 2⟩).1 := by
  decide

/-- C5 amended: only the MongoDB implementation of `addContact` is
idempotent — a second call with the same pair returns the same edge and
leaves the state unchanged, and the matching edge count goes from 0 to 1
and otherwise stays put. -/
theorem mongoAddContact_idempotent :
    ∀ (s : MongoState) (ic : InsertContact),
    mongoAddContact (mongoAddContact s ic).2 ic =
      ((mongoAddContact s ic).1, (mongoAddContact s ic).2) ∧
    (mongoAddContact s ic).2.contacts.countP
        (fun c => c.userId == ic.userId && c.contactId == ic.contactId) =
      (if s.contacts.countP
          (fun c => c.userId == ic.userId && c.contactId == ic.contactId) = 0
       then 1
       else s.contacts.countP
          (fun c => c.userId == ic.userId && c.contactId == ic.contactId)) := by
  intro s ic
  unfold mongoAddContact
  cases h : s.contacts.find?
      (fun c => c.userId == ic.userId && c.contactId == ic.contactId) with
  | some existing =>
    simp only [h]
    have hcount : s.contacts.countP
        (fun c => c.userId == ic.userId && c.contactId == ic.contactId) ≠ 0 := by
      have hmem := List.mem_of_find?_eq_some h
      have hp := List.find?_some h
      have : 0 < s.contacts.countP
          (fun c => c.userId == ic.userId && c.contactId == ic.contactId) :=
        List.countP_pos_iff.mpr ⟨existing, hmem, hp⟩
      omega
    simp [hcount]
  | none =>
    simp only [h]
    have hp : ((fun c => c.userId == ic.userId && c.contactId == ic.contactId)
        ({ id := s.nextOid, userId := ic.userId, contactId := ic.contactId } : Contact)) = true := by
      simp
    have hfind : ((s.contacts ++
        [({ id := s.nextOid, userId := ic.userId, contactId := ic.contactId } : Contact)]).find?
          (fun c => c.userId == ic.userId && c.contactId == ic.contactId)) =
        some { id := s.nextOid, userId := ic.userId, contactId := ic.contactId } := by
      rw [find?_append_none _ _ _ h]
      simp [List.find?]
    have hcount0 : s.contacts.countP
        (fun c => c.userId == ic.userId && c.contactId == ic.contactId) = 0 := by
      rw [List.countP_eq_zero]
      intro a ha hpa
      have := List.find?_eq_none.mp h a ha
      exact this hpa
    simp [hfind, hcount0, List.countP_append, List.countP_cons, hp]

/-- C2 counterexample: the very first Repository call diverges — from the
two fresh stores, `createUser` with the same input yields `isOnline =
false` in the in-memory implementation but `isOnline = true` in the
MongoDB implementation. -/
theorem storage_impls_differ_on_createUser :
    (memCreateUser initMem ⟨"a", "b", "c"⟩ 5).1.isOnline = false ∧
    (mongoCreateUser initMongo ⟨"a", "b", "c"⟩ 5).1.isOnline = true := by
  decide

/-- C2 amended: the two implementations are not observably equivalent.
For every input, `createUser` initialises `isOnline` to `false` in the
in-memory store but to `true` in the MongoDB store, and two identical
`addContact` calls from the fresh store leave two edges in the in-memory
store but one edge in the MongoDB store. -/
theorem storage_impls_not_equivalent :
    ∀ (iu : InsertUser) (now : Nat) (ic : InsertContact),
    (memCreateUser initMem iu now).1.isOnline = false ∧
    (mongoCreateUser initMongo iu now).1.isOnline = true ∧
    (memAddContact (memAddContact initMem ic).2 ic).2.contacts.length = 2 ∧
    (mongoAddContact (mongoAddContact initMongo ic).2 ic).2.contacts.length = 1 := by
  intro iu now ic
  refine ⟨rfl, rfl, ?_, ?_⟩
  · simp [memAddContact, mapSet, initMem]
  · simp [mongoAddContact, initMongo, List.find?]

/-- C9: every protocol error on the live channel — a malformed frame, an
unknown event type, or any non-authenticate event while the connection's
`userId` variable is not (truthy-)set — is silently dropped: the handler
returns the state unchanged and sends nothing. -/
theorem protocol_errors_silently_dropped :
    ∀ (st : ServerState) (c : Nat) (inb : Inbound) (now : Nat),
    (inb = Inbound.malformed ∨ (∃ t, inb = Inbound.unknown t) ∨
      (jsTruthy (authGet st.auth c) = false ∧
        ∀ uo, inb ≠ Inbound.authenticate uo)) →
    stepRecv st c inb now = (st, []) := by
  intro st c inb now h
  cases inb with
  | malformed => rfl
  | unknown t => rfl
  | authenticate uo =>
    exfalso
    rcases h with h | ⟨t, h⟩ | ⟨_, h⟩
    · exact Inbound.noConfusion h
    · exact Inbound.noConfusion h
    · exact h uo rfl
  | message rid content =>
    rcases h with h | ⟨t, h⟩ | ⟨hfalse, _⟩
    · exact Inbound.noConfusion h
    · exact Inbound.noConfusion h
    · simp [stepRecv, hfalse]
  | readReceipt mid =>
    rcases h with h | ⟨t, h⟩ | ⟨hfalse, _⟩
    · exact Inbound.noConfusion h
    · exact Inbound.noConfusion h
    · simp [stepRecv, hfalse]
  | typing rid isTyping =>
    rcases h with h | ⟨t, h⟩ | ⟨hfalse, _⟩
    · exact Inbound.noConfusion h
    · exact Inbound.noConfusion h
    · simp [stepRecv, hfalse]

/-- C9 witness: a `message` event on an unauthenticated connection of a
concrete server state is dropped with no state change and no output. -/
theorem protocol_errors_silently_dropped_witness :
    stepRecv (ServerState.init storeAB) 7 (Inbound.message 2 "hi") 9 =
      (ServerState.init storeAB, []) :=
  protocol_errors_silently_dropped (ServerState.init storeAB) 7
    (Inbound.message 2 "hi") 9
    (Or.inr (Or.inr ⟨by decide, fun uo h => Inbound.noConfusion h⟩))

theorem mem_regSet_ne {clients : List (Nat × Nat)} {u c : Nat} {e : Nat × Nat}
    (hemem : e ∈ regSet clients u c) (hne : e.1 ≠ u) : e ∈ clients := by
  unfold regSet at hemem
  by_cases hany : clients.any (fun e => e.1 == u)
  · rw [if_pos hany] at hemem
    obtain ⟨v, hv, hve⟩ := List.mem_map.mp hemem
    by_cases hvu : v.1 == u
    · rw [if_pos hvu] at hve
      exact absurd (by rw [← hve]) hne
    · rw [if_neg hvu] at hve
      exact hve ▸ hv
  · rw [if_neg hany] at hemem
    rcases List.mem_append.mp hemem with h | h
    · exact h
    · exfalso
      have he : e = (u, c) := by simpa using h
      exact hne (by rw [he])

/-- C1 counterexample: connection 11 authenticates as user 1, then
connection 12 authenticates as user 1 (replacing the registry entry), and
then the stale connection 11 closes.  The close handler erases the
registry entry that now belongs to connection 12 (lookup of user 1 yields
nothing instead of connection 12) and marks user 1 offline. -/
theorem stale_close_erases_fresh_registration :
    regGet srvStale.clients 1 = some 12 ∧
    regGet (stepClose srvStale 11 3).1.clients 1 = none ∧
    (memGetUser (stepClose srvStale 11 3).1.store 1).map User.isOnline =
      some false := by
  decide

/-- C1 amended: the close handler of a connection whose `userId` variable
is (truthy-)set to `u` unconditionally deletes whatever registry entry
exists for `u` — even one belonging to a newer connection — and persists
`isOnline = false, lastSeen = now` for `u`. -/
theorem close_unregisters_unconditionally :
    ∀ (st : ServerState) (c u now : Nat),
    authGet st.auth c = some u → u ≠ 0 →
    regGet (stepClose st c now).1.clients u = none ∧
    (stepClose st c now).1.store = (memUpdateUserStatus st.store u false now).2 ∧
    (∀ usr, memGetUser st.store u = some usr →
      memGetUser (stepClose st c now).1.store u =
        some { usr with isOnline := false, lastSeen := now }) := by
  intro st c u now hauth hu
  have hstep : stepClose st c now =
      ({ store := (memUpdateUserStatus st.store u false now).2,
         clients := regDelete st.clients u, auth := st.auth,
         openc := st.openc.erase c },
       (regDelete st.clients u).filterMap (fun e =>
         if isOpenConn (st.openc.erase c) e.2 then
           some (e.2, Outbound.statusChange u false)
         else none)) := by
    unfold stepClose
    rw [hauth]
    simp [jsTruthy, hu]
  have hupd : ∀ usr, memGetUser st.store u = some usr →
      memUpdateUserStatus st.store u false now =
        (some { usr with isOnline := false, lastSeen := now },
         { st.store with users := mapSet User.id st.store.users ({ usr with isOnline := false, lastSeen := now }) }) := by
    intro usr husr
    unfold memUpdateUserStatus
    rw [husr]
    rfl
  refine ⟨?_, ?_, ?_⟩
  · rw [hstep]
    exact regGet_regDelete st.clients u
  · rw [hstep]
  · intro usr husr
    rw [hstep]
    have hid : usr.id = u := (mapGet_key User.id st.store.users u usr husr).1
    show memGetUser ((memUpdateUserStatus st.store u false now).2) u = _
    rw [hupd usr husr]
    exact mapGet_mapSet_same User.id st.store.users u usr _ husr hid

/-- C1 witness for the amended theorem: in the handcrafted state where the
registry maps user 1 to connection 12 but connection 11's variable still
says user 1, closing connection 11 erases the entry and marks user 1
offline with `lastSeen = 9`. -/
theorem close_unregisters_unconditionally_witness :
    regGet (stepClose stW1 11 9).1.clients 1 = none ∧
    (stepClose stW1 11 9).1.store = (memUpdateUserStatus stW1.store 1 false 9).2 ∧
    (∀ usr, memGetUser stW1.store 1 = some usr →
      memGetUser (stepClose stW1 11 9).1.store 1 =
        some { usr with isOnline := false, lastSeen := 9 }) :=
  close_unregisters_unconditionally stW1 11 1 9 (by decide) (by decide)

/-- C8 counterexample: Alice (user 1, created with `lastSeen = 5`)
authenticates at time 10; the persisted user is online but its `lastSeen`
is still 5, not the authentication time 10. -/
theorem authenticate_does_not_refresh_lastSeen :
    memGetUser (runEvents (ServerState.init storeA5)
        [Event.connect 10, Event.recv 10 (Inbound.authenticate (some 1)) 10]).store 1 =
      some { id := 1, username := "alice", password := "pw", displayName := "Alice",
             avatar := none, isOnline := true, lastSeen := 5 } ∧
    (memGetUser (runEvents (ServerState.init storeA5)
        [Event.connect 10, Event.recv 10 (Inbound.authenticate (some 1)) 10]).store 1).map
        User.lastSeen ≠ some 10 := by
  decide

/-- C8 amended: on authenticate the server persists `isOnline = true` but
leaves `lastSeen` unchanged (the in-memory repository refreshes it only on
the offline transition); the `status_change {userId, isOnline: true}`
broadcast goes exactly to the registry entries keyed by other users whose
connection is open, so a connection registered only under the
authenticating user's id never receives it. -/
theorem authenticate_effects :
    ∀ (st : ServerState) (c u now : Nat) (usr : User),
    u ≠ 0 → memGetUser st.store u = some usr →
    memGetUser (stepRecv st c (Inbound.authenticate (some u)) now).1.store u =
      some { usr with isOnline := true } ∧
    (stepRecv st c (Inbound.authenticate (some u)) now).1.clients =
      regSet st.clients u c ∧
    (stepRecv st c (Inbound.authenticate (some u)) now).2 =
      (regSet st.clients u c).filterMap (fun e =>
        if e.1 ≠ u ∧ isOpenConn st.openc e.2 then
          some (e.2, Outbound.statusChange u true)
        else none) ∧
    (∀ out ∈ (stepRecv st c (Inbound.authenticate (some u)) now).2,
      out.2 = Outbound.statusChange u true) ∧
    ((∀ k, (k, c) ∈ st.clients → k = u) →
      ∀ out ∈ (stepRecv st c (Inbound.authenticate (some u)) now).2, out.1 ≠ c) := by
  intro st c u now usr hu husr
  have hstep : stepRecv st c (Inbound.authenticate (some u)) now =
      ({ st with auth := authSet st.auth c (some u),
                 clients := regSet st.clients u c,
                 store := (memUpdateUserStatus st.store u true now).2 },
       (regSet st.clients u c).filterMap (fun e =>
         if e.1 ≠ u ∧ isOpenConn st.openc e.2 then
           some (e.2, Outbound.statusChange u true)
         else none)) := by
    unfold stepRecv
    simp [jsTruthy, hu]
  have hid : usr.id = u := (mapGet_key User.id st.store.users u usr husr).1
  refine ⟨?_, ?_, ?_, ?_, ?_⟩
  · rw [hstep]
    show memGetUser ((memUpdateUserStatus st.store u true now).2) u = _
    have hupd : memUpdateUserStatus st.store u true now =
        (some { usr with isOnline := true },
         { st.store with users := mapSet User.id st.store.users ({ usr with isOnline := true }) }) := by
      unfold memUpdateUserStatus
      rw [husr]
      rfl
    rw [hupd]
    exact mapGet_mapSet_same User.id st.store.users u usr _ husr hid
  · rw [hstep]
  · rw [hstep]
  · intro out hout
    rw [hstep] at hout
    obtain ⟨e, _, he⟩ := List.mem_filterMap.mp hout
    by_cases hcond : e.1 ≠ u ∧ isOpenConn st.openc e.2
    · rw [if_pos hcond] at he
      cases he
      rfl
    · rw [if_neg hcond] at he
      exact Option.noConfusion he
  · intro honly out hout
    rw [hstep] at hout
    obtain ⟨e, hemem, he⟩ := List.mem_filterMap.mp hout
    by_cases hcond : e.1 ≠ u ∧ isOpenConn st.openc e.2
    · rw [if_pos hcond] at he
      cases he
      intro hec
      have hec2 : e.2 = c := hec
      have hecl : e ∈ st.clients := mem_regSet_ne hemem hcond.1
      have heq : e.1 = u := by
        apply honly e.1
        rw [← hec2, Prod.mk.eta]
        exact hecl
      exact hcond.1 heq
    · rw [if_neg hcond] at he
      exact Option.noConfusion he

/-- C8 witness for the amended theorem: user 1 authenticates on connection
10 at time 7 while user 2 is live on connection 20; user 1's record gains
`isOnline = true` (with `lastSeen` untouched) and the broadcast list is
exactly the status-change push to connection 20. -/
theorem authenticate_effects_witness :
    memGetUser (stepRecv stW8 10 (Inbound.authenticate (some 1)) 7).1.store 1 =
      some { ((memGetUser stW8.store 1).getD
              { id := 0, username := "", password := "", displayName := "",
                avatar := none, isOnline := false, lastSeen := 0 }) with
             isOnline := true } ∧
    (stepRecv stW8 10 (Inbound.authenticate (some 1)) 7).1.clients =
      regSet stW8.clients 1 10 ∧
    (stepRecv stW8 10 (Inbound.authenticate (some 1)) 7).2 =
      (regSet stW8.clients 1 10).filterMap (fun e =>
        if e.1 ≠ 1 ∧ isOpenConn stW8.openc e.2 then
          some (e.2, Outbound.statusChange 1 true)
        else none) ∧
    (∀ out ∈ (stepRecv stW8 10 (Inbound.authenticate (some 1)) 7).2,
      out.2 = Outbound.statusChange 1 true) ∧
    ((∀ k, (k, 10) ∈ stW8.clients → k = 1) →
      ∀ out ∈ (stepRecv stW8 10 (Inbound.authenticate (some 1)) 7).2, out.1 ≠ 10) :=
  authenticate_effects stW8 10 1 7
    ({ id := 1, username := "alice", password := "pw", displayName := "Alice",
       avatar := none, isOnline := false, lastSeen := 0 })
    (by decide) (by decide)

/-- C3: for an authenticated sender, a live `message` event persists the
message through the repository (server-assigned id, `sentAt = now`,
`isRead = false`), always sends the `message_sent` confirmation carrying
exactly the persisted message back to the sender's connection, and sends
the `message` push to the receiver precisely when the receiver has an
open registry entry.  The in-memory persistence is total, so the
confirmation is issued exactly in the successful-persistence case. -/
theorem message_event_delivery :
    ∀ (st : ServerState) (c u rid : Nat) (content : String) (now : Nat)
      (m : Message) (store' : MemStorage),
    authGet st.auth c = some u → u ≠ 0 →
    memCreateMessage st.store ⟨u, rid, content⟩ now = (m, store') →
    (stepRecv st c (Inbound.message rid content) now).1.store = store' ∧
    m ∈ store'.messages ∧
    m.id = st.store.currentMessageId ∧ m.senderId = u ∧ m.receiverId = rid ∧
    m.content = content ∧ m.sentAt = now ∧ m.isRead = false ∧
    (c, Outbound.messageSent m) ∈ (stepRecv st c (Inbound.message rid content) now).2 ∧
    ((∃ rc, regGet st.clients rid = some rc ∧ isOpenConn st.openc rc = true) ↔
      (∃ rc, (rc, Outbound.message m) ∈ (stepRecv st c (Inbound.message rid content) now).2)) := by
  intro st c u rid content now m store' hauth hu hmc
  injection hmc with h1 h2
  subst h1
  subst h2
  have hstep : stepRecv st c (Inbound.message rid content) now =
      ({ st with store := (memCreateMessage st.store ⟨u, rid, content⟩ now).2 },
       (match regGet st.clients rid with
        | some rc =>
          if isOpenConn st.openc rc then
            [(rc, Outbound.message (memCreateMessage st.store ⟨u, rid, content⟩ now).1)]
          else []
        | none => []) ++
         [(c, Outbound.messageSent (memCreateMessage st.store ⟨u, rid, content⟩ now).1)]) := by
    unfold stepRecv
    rw [hauth]
    simp [jsTruthy, hu]
  have hm1 : (memCreateMessage st.store ⟨u, rid, content⟩ now).1 =
      { id := st.store.currentMessageId, senderId := u, receiverId := rid,
        content := content, sentAt := now, isRead := false } := rfl
  refine ⟨?_, ?_, rfl, rfl, rfl, rfl, rfl, rfl, ?_, ?_⟩
  · rw [hstep]
    rfl
  · exact mem_mapSet_self Message.id st.store.messages _
  · rw [hstep]
    exact List.mem_append_right _ (List.mem_singleton.mpr (by rw [hm1]))
  · rw [hstep]
    cases hreg : regGet st.clients rid with
    | none => simp [hm1]
    | some rc =>
      cases hopen : isOpenConn st.openc rc with
      | true =>
        refine iff_of_true ⟨rc, rfl, hopen⟩ ⟨rc, ?_⟩
        simp [hm1, hopen]
      | false => simp [hopen, hm1]

/-- C3 witness: user 1 (authenticated on connection 10) sends to user 2
who is live on connection 20 over `stW3`. -/
theorem message_event_delivery_witness :
    (stepRecv stW3 10 (Inbound.message 2 "yo") 7).1.store =
      (memCreateMessage stW3.store ⟨1, 2, "yo"⟩ 7).2 ∧
    msgW3 ∈ (memCreateMessage stW3.store ⟨1, 2, "yo"⟩ 7).2.messages ∧
    msgW3.id = stW3.store.currentMessageId ∧
    msgW3.senderId = 1 ∧ msgW3.receiverId = 2 ∧ msgW3.content = "yo" ∧
    msgW3.sentAt = 7 ∧ msgW3.isRead = false ∧
    (10, Outbound.messageSent msgW3) ∈ (stepRecv stW3 10 (Inbound.message 2 "yo") 7).2 ∧
    ((∃ rc, regGet stW3.clients 2 = some rc ∧ isOpenConn stW3.openc rc = true) ↔
      (∃ rc, (rc, Outbound.message msgW3) ∈
        (stepRecv stW3 10 (Inbound.message 2 "yo") 7).2)) :=
  message_event_delivery stW3 10 1 2 "yo" 7 msgW3
    (memCreateMessage stW3.store ⟨1, 2, "yo"⟩ 7).2
    (by decide) (by decide) (by decide)

/-- C7 counterexample: over `srvA0` (only user 1 exists; connection 10 is
authenticated as user 1) a live `message` event addressed to the
nonexistent user 2 is persisted anyway: the store afterwards holds a
message whose `receiverId` (2) matches no user. -/
theorem live_message_persists_unknown_receiver :
    (stepRecv srvA0 10 (Inbound.message 2 "hi") 5).1.store.messages =
      [{ id := 1, senderId := 1, receiverId := 2, content := "hi", sentAt := 5,
         isRead := false }] ∧
    memGetUser (stepRecv srvA0 10 (Inbound.message 2 "hi") 5).1.store 2 = none := by
  decide

/-- C7 amended: the live `message` path performs no receiver validation —
for an authenticated sender it persists the message even when the
receiver id matches no user — whereas the request/response send path
(`POST /api/messages`) rejects an unknown receiver with not-found and
leaves the store unchanged. -/
theorem message_receiver_unvalidated :
    ∀ (st : ServerState) (c u rid : Nat) (content : String) (now : Nat),
    authGet st.auth c = some u → u ≠ 0 →
    (stepRecv st c (Inbound.message rid content) now).1.store =
      (memCreateMessage st.store ⟨u, rid, content⟩ now).2 ∧
    (memCreateMessage st.store ⟨u, rid, content⟩ now).1 ∈
      (memCreateMessage st.store ⟨u, rid, content⟩ now).2.messages ∧
    (memCreateMessage st.store ⟨u, rid, content⟩ now).1.receiverId = rid ∧
    (∀ (sndr : Nat) (cont : String) (now' : Nat), rid ≠ 0 → cont ≠ "" →
      memGetUser st.store rid = none →
      apiPostMessages st.store sndr (some rid) (some cont) now' =
        (ApiResp.notFound "Receiver not found", st.store)) := by
  intro st c u rid content now hauth hu
  refine ⟨?_, ?_, rfl, ?_⟩
  · unfold stepRecv
    rw [hauth]
    simp [jsTruthy, hu]
  · exact mem_mapSet_self Message.id st.store.messages _
  · intro sndr cont now' hrid hcont hnone
    have hneg : ¬(rid = 0 ∨ cont = "") := by simp [hrid, hcont]
    change (if rid = 0 ∨ cont = "" then
          (ApiResp.badRequest "Receiver ID and content are required", st.store)
        else
          match memGetUser st.store rid with
          | none => (ApiResp.notFound "Receiver not found", st.store)
          | some _ =>
            match memCreateMessage st.store ⟨sndr, rid, cont⟩ now' with
            | (m, s') => (ApiResp.created m, s')) =
      (ApiResp.notFound "Receiver not found", st.store)
    rw [if_neg hneg, hnone]

/-- C7 witness for the amended theorem: over `stW7` (user 1 authenticated
on connection 10, user 2 absent), the live path persists a message to
user 2 while the API path refuses it. -/
theorem message_receiver_unvalidated_witness :
    (stepRecv stW7 10 (Inbound.message 2 "hi") 5).1.store =
      (memCreateMessage stW7.store ⟨1, 2, "hi"⟩ 5).2 ∧
    (memCreateMessage stW7.store ⟨1, 2, "hi"⟩ 5).1 ∈
      (memCreateMessage stW7.store ⟨1, 2, "hi"⟩ 5).2.messages ∧
    (memCreateMessage stW7.store ⟨1, 2, "hi"⟩ 5).1.receiverId = 2 ∧
    (∀ (sndr : Nat) (cont : String) (now' : Nat), (2 : Nat) ≠ 0 → cont ≠ "" →
      memGetUser stW7.store 2 = none →
      apiPostMessages stW7.store sndr (some 2) (some cont) now' =
        (ApiResp.notFound "Receiver not found", stW7.store)) :=
  message_receiver_unvalidated stW7 10 1 2 "hi" 5 (by decide) (by decide)

/-- C10: handling a `read_receipt` for an existing message changes only
that message's `isRead` field — every other field and every other message
(and the users and contacts) are untouched — every push it emits is a
`read_receipt {messageId, readAt}` whose `readAt` is the handler's
current time, and the resulting state does not depend on that time at
all (the `Message` record has no read-timestamp field, so the pushed
`readAt` is never persisted). -/
theorem read_receipt_marks_only_isRead :
    ∀ (st : ServerState) (c u mid now : Nat) (m0 : Message),
    authGet st.auth c = some u → u ≠ 0 →
    mapGet Message.id st.store.messages mid = some m0 →
    (st.store.messages.map Message.id).Nodup →
    (stepRecv st c (Inbound.readReceipt mid) now).1.store.messages =
      st.store.messages.map
        (fun v => if v.id = mid then { v with isRead := true } else v) ∧
    (stepRecv st c (Inbound.readReceipt mid) now).1.store.users = st.store.users ∧
    (stepRecv st c (Inbound.readReceipt mid) now).1.store.contacts = st.store.contacts ∧
    (∀ v ∈ st.store.messages, v.id ≠ mid →
      v ∈ (stepRecv st c (Inbound.readReceipt mid) now).1.store.messages) ∧
    (∀ out ∈ (stepRecv st c (Inbound.readReceipt mid) now).2,
      out.2 = Outbound.readReceipt mid now) ∧
    (∀ now₂ : Nat, (stepRecv st c (Inbound.readReceipt mid) now₂).1 =
      (stepRecv st c (Inbound.readReceipt mid) now).1) := by
  intro st c u mid now m0 hauth hu h0 hnd
  obtain ⟨hm0id, hm0mem⟩ := mapGet_key Message.id st.store.messages mid m0 h0
  have hmark : memMarkMessageAsRead st.store mid =
      (some ({ m0 with isRead := true }),
       { st.store with messages := mapSet Message.id st.store.messages ({ m0 with isRead := true }) }) := by
    unfold memMarkMessageAsRead
    rw [h0]
  have hstep : ∀ t : Nat, stepRecv st c (Inbound.readReceipt mid) t =
      ({ st with store := { st.store with messages := mapSet Message.id st.store.messages ({ m0 with isRead := true }) } },
       match regGet st.clients m0.senderId with
       | some sc =>
         if isOpenConn st.openc sc then [(sc, Outbound.readReceipt mid t)] else []
       | none => []) := by
    intro t
    unfold stepRecv
    rw [hauth]
    simp [jsTruthy, hu, hmark]
  have hmsgs : mapSet Message.id st.store.messages ({ m0 with isRead := true }) =
      st.store.messages.map
        (fun v => if v.id = mid then { v with isRead := true } else v) := by
    have hany : st.store.messages.any
        (fun v => Message.id v == Message.id ({ m0 with isRead := true })) = true :=
      List.any_eq_true.mpr ⟨m0, hm0mem, by simp⟩
    unfold mapSet
    rw [hany]
    simp only [if_pos]
    apply List.map_congr_left
    intro v hv
    by_cases hvid : v.id = mid
    · have hvm0 : v = m0 := by
        refine List.inj_on_of_nodup_map hnd hv hm0mem ?_
        show v.id = m0.id
        rw [hvid, hm0id]
      rw [if_pos (by show (v.id == m0.id) = true; simp [hvid, hm0id]), if_pos hvid, hvm0]
    · rw [if_neg (by show ¬(v.id == m0.id) = true; simp [hvid, hm0id]), if_neg hvid]
  refine ⟨?_, ?_, ?_, ?_, ?_, ?_⟩
  · rw [hstep now]
    exact hmsgs
  · rw [hstep now]
  · rw [hstep now]
  · intro v hv hvne
    rw [hstep now]
    show v ∈ mapSet Message.id st.store.messages ({ m0 with isRead := true })
    rw [hmsgs]
    exact List.mem_map.mpr ⟨v, hv, by rw [if_neg hvne]⟩
  · intro out hout
    obtain ⟨o1, o2⟩ := out
    rw [hstep now] at hout
    have hout2 : (o1, o2) ∈ (match regGet st.clients m0.senderId with
        | some sc =>
          if isOpenConn st.openc sc then [(sc, Outbound.readReceipt mid now)]
          else []
        | none => []) := hout
    clear hout
    cases hr : regGet st.clients m0.senderId with
    | none =>
      rw [hr] at hout2
      simp at hout2
    | some sc =>
      rw [hr] at hout2
      by_cases ho : isOpenConn st.openc sc = true
      · simp [ho] at hout2
        show o2 = Outbound.readReceipt mid now
        exact hout2.2
      · simp [ho] at hout2
  · intro now₂
    rw [hstep now, hstep now₂]

/-- C10 witness: over `stW10`, user 2 (connection 12) sends a
`read_receipt` for message 1 at time 8. -/
theorem read_receipt_marks_only_isRead_witness :
    (stepRecv stW10 12 (Inbound.readReceipt 1) 8).1.store.messages =
      stW10.store.messages.map
        (fun v => if v.id = 1 then { v with isRead := true } else v) ∧
    (stepRecv stW10 12 (Inbound.readReceipt 1) 8).1.store.users = stW10.store.users ∧
    (stepRecv stW10 12 (Inbound.readReceipt 1) 8).1.store.contacts = stW10.store.contacts ∧
    (∀ v ∈ stW10.store.messages, v.id ≠ 1 →
      v ∈ (stepRecv stW10 12 (Inbound.readReceipt 1) 8).1.store.messages) ∧
    (∀ out ∈ (stepRecv stW10 12 (Inbound.readReceipt 1) 8).2,
      out.2 = Outbound.readReceipt 1 8) ∧
    (∀ now₂ : Nat, (stepRecv stW10 12 (Inbound.readReceipt 1) now₂).1 =
      (stepRecv stW10 12 (Inbound.readReceipt 1) 8).1) :=
  read_receipt_marks_only_isRead stW10 12 2 1 8
    { id := 1, senderId := 1, receiverId := 2, content := "hi", sentAt := 3,
      isRead := false }
    (by decide) (by decide) (by decide) (by decide)

theorem memUpdateUserStatus_messages (s : MemStorage) (id : Nat)
    (isOnline : Bool) (now : Nat) :
    (memUpdateUserStatus s id isOnline now).2.messages = s.messages ∧
    (memUpdateUserStatus s id isOnline now).2.currentMessageId =
      s.currentMessageId := by
  unfold memUpdateUserStatus
  cases memGetUser s id <;> exact ⟨rfl, rfl⟩

theorem memUpdateUserLastSeen_messages (s : MemStorage) (id now : Nat) :
    (memUpdateUserLastSeen s id now).2.messages = s.messages ∧
    (memUpdateUserLastSeen s id now).2.currentMessageId = s.currentMessageId := by
  unfold memUpdateUserLastSeen
  cases memGetUser s id <;> exact ⟨rfl, rfl⟩

theorem memRemoveContact_messages (s : MemStorage) (userId contactId : Nat) :
    (memRemoveContact s userId contactId).2.messages = s.messages ∧
    (memRemoveContact s userId contactId).2.currentMessageId =
      s.currentMessageId := by
  unfold memRemoveContact
  cases s.contacts.find? (fun c => c.userId == userId && c.contactId == contactId) <;>
    exact ⟨rfl, rfl⟩

theorem reachable_msg_ids_bounded :
    ∀ (s : MemStorage), ReachableMem s →
    ∀ m ∈ s.messages, m.id < s.currentMessageId := by
  intro s hr
  induction hr with
  | init => intro m hm; simp [initMem] at hm
  | step s op now _ ih =>
    cases op with
    | createUser iu =>
      intro m hm
      exact ih m hm
    | updateUserStatus id isOnline =>
      intro m hm
      rw [show (applyOp s (StoreOp.updateUserStatus id isOnline) now) =
            (memUpdateUserStatus s id isOnline now).2 from rfl,
          (memUpdateUserStatus_messages s id isOnline now).1] at hm
      rw [show (applyOp s (StoreOp.updateUserStatus id isOnline) now) =
            (memUpdateUserStatus s id isOnline now).2 from rfl,
          (memUpdateUserStatus_messages s id isOnline now).2]
      exact ih m hm
    | updateUserLastSeen id =>
      intro m hm
      rw [show (applyOp s (StoreOp.updateUserLastSeen id) now) =
            (memUpdateUserLastSeen s id now).2 from rfl,
          (memUpdateUserLastSeen_messages s id now).1] at hm
      rw [show (applyOp s (StoreOp.updateUserLastSeen id) now) =
            (memUpdateUserLastSeen s id now).2 from rfl,
          (memUpdateUserLastSeen_messages s id now).2]
      exact ih m hm
    | addContact ic =>
      intro m hm
      exact ih m hm
    | removeContact userId contactId =>
      intro m hm
      rw [show (applyOp s (StoreOp.removeContact userId contactId) now) =
            (memRemoveContact s userId contactId).2 from rfl,
          (memRemoveContact_messages s userId contactId).1] at hm
      rw [show (applyOp s (StoreOp.removeContact userId contactId) now) =
            (memRemoveContact s userId contactId).2 from rfl,
          (memRemoveContact_messages s userId contactId).2]
      exact ih m hm
    | createMessage im =>
      intro m hm
      have happ : (memCreateMessage s im now).2.messages =
          s.messages ++ [(memCreateMessage s im now).1] := by
        show mapSet Message.id s.messages _ = _
        apply mapSet_eq_append
        intro v hv
        show v.id ≠ s.currentMessageId
        exact Nat.ne_of_lt (ih v hv)
      rw [show (applyOp s (StoreOp.createMessage im) now).messages =
            (memCreateMessage s im now).2.messages from rfl, happ] at hm
      show m.id < s.currentMessageId + 1
      rcases List.mem_append.mp hm with h | h
      · exact Nat.lt_succ_of_lt (ih m h)
      · rw [List.mem_singleton.mp h]
        exact Nat.lt_succ_self _
    | markMessageAsRead mid =>
      cases h : mapGet Message.id s.messages mid with
      | none =>
        have heq : (memMarkMessageAsRead s mid).2 = s := by
          unfold memMarkMessageAsRead
          rw [h]
        intro m hm
        rw [show (applyOp s (StoreOp.markMessageAsRead mid) now) =
              (memMarkMessageAsRead s mid).2 from rfl, heq] at hm ⊢
        exact ih m hm
      | some m0 =>
        have heq : (memMarkMessageAsRead s mid).2 =
            { s with messages := mapSet Message.id s.messages ({ m0 with isRead := true }) } := by
          unfold memMarkMessageAsRead
          rw [h]
        intro m hm
        rw [show (applyOp s (StoreOp.markMessageAsRead mid) now) =
              (memMarkMessageAsRead s mid).2 from rfl, heq] at hm ⊢
        have hm0mem : m0 ∈ s.messages := (mapGet_key _ _ _ _ h).2
        show m.id < s.currentMessageId
        revert hm
        show m ∈ mapSet Message.id s.messages ({ m0 with isRead := true }) → _
        unfold mapSet
        split
        · intro hmm
          obtain ⟨v, hv, hve⟩ := List.mem_map.mp hmm
          by_cases hvid : v.id == Message.id ({ m0 with isRead := true })
          · rw [if_pos hvid] at hve
            rw [← hve]
            show m0.id < s.currentMessageId
            exact ih m0 hm0mem
          · rw [if_neg hvid] at hve
            rw [← hve]
            exact ih v hv
        · intro hmm
          rcases List.mem_append.mp hmm with hmem | hmem
          · exact ih m hmem
          · rw [List.mem_singleton.mp hmem]
            show m0.id < s.currentMessageId
            exact ih m0 hm0mem

/-- C6: the read flag is monotonic.  In every reachable in-memory store,
if the message with a given id has `isRead = true`, then after any single
interface operation the message looked up under that id still has
`isRead = true` (`createMessage` allocates a fresh id and initialises the
flag to `false` without touching existing messages; `markMessageAsRead`
only ever sets the flag to `true`; no other operation writes messages). -/
theorem read_flag_monotonic :
    ∀ (s : MemStorage), ReachableMem s →
    ∀ (op : StoreOp) (now mid : Nat) (m m' : Message),
    mapGet Message.id s.messages mid = some m → m.isRead = true →
    mapGet Message.id (applyOp s op now).messages mid = some m' →
    m'.isRead = true := by
  intro s hr op now mid m m' h1 hread h2
  have hbound := reachable_msg_ids_bounded s hr
  cases op with
  | createUser iu =>
    rw [show (applyOp s (StoreOp.createUser iu) now).messages = s.messages from rfl,
        h1] at h2
    cases h2
    exact hread
  | updateUserStatus id isOnline =>
    rw [show (applyOp s (StoreOp.updateUserStatus id isOnline) now) =
          (memUpdateUserStatus s id isOnline now).2 from rfl,
        (memUpdateUserStatus_messages s id isOnline now).1, h1] at h2
    cases h2
    exact hread
  | updateUserLastSeen id =>
    rw [show (applyOp s (StoreOp.updateUserLastSeen id) now) =
          (memUpdateUserLastSeen s id now).2 from rfl,
        (memUpdateUserLastSeen_messages s id now).1, h1] at h2
    cases h2
    exact hread
  | addContact ic =>
    rw [show (applyOp s (StoreOp.addContact ic) now).messages = s.messages from rfl,
        h1] at h2
    cases h2
    exact hread
  | removeContact userId contactId =>
    rw [show (applyOp s (StoreOp.removeContact userId contactId) now) =
          (memRemoveContact s userId contactId).2 from rfl,
        (memRemoveContact_messages s userId contactId).1, h1] at h2
    cases h2
    exact hread
  | createMessage im =>
    have happ : (applyOp s (StoreOp.createMessage im) now).messages =
        s.messages ++ [(memCreateMessage s im now).1] := by
      show mapSet Message.id s.messages _ = _
      apply mapSet_eq_append
      intro v hv
      exact Nat.ne_of_lt (hbound v hv)
    rw [happ] at h2
    unfold mapGet at h1 h2
    rw [find?_append_of_some _ _ _ _ h1] at h2
    cases h2
    exact hread
  | markMessageAsRead mid' =>
    revert h2
    show mapGet Message.id (memMarkMessageAsRead s mid').2.messages mid = some m' → _
    cases h : mapGet Message.id s.messages mid' with
    | none =>
      have heq : (memMarkMessageAsRead s mid').2 = s := by
        unfold memMarkMessageAsRead
        rw [h]
      intro h2
      rw [heq, h1] at h2
      cases h2
      exact hread
    | some m0 =>
      have hup : (memMarkMessageAsRead s mid').2.messages =
          mapSet Message.id s.messages ({ m0 with isRead := true }) := by
        unfold memMarkMessageAsRead
        rw [h]
      intro h2
      rw [hup] at h2
      have hm0mem : m0 ∈ s.messages := (mapGet_key _ _ _ _ h).2
      have hany : s.messages.any
          (fun v => Message.id v == Message.id ({ m0 with isRead := true })) = true :=
        List.any_eq_true.mpr ⟨m0, hm0mem, by simp⟩
      unfold mapSet at h2
      rw [hany] at h2
      simp only [if_pos] at h2
      have hpres : ∀ v : Message,
          ((fun v => Message.id v == mid)
            ((fun v => if Message.id v == Message.id ({ m0 with isRead := true })
                       then { m0 with isRead := true } else v) v))
          = (fun v => Message.id v == mid) v := by
        intro v
        show ((if v.id == m0.id then ({ m0 with isRead := true } : Message) else v).id == mid)
          = (v.id == mid)
        by_cases hv : (v.id == m0.id) = true
        · rw [if_pos hv]
          show (m0.id == mid) = (v.id == mid)
          have hid : v.id = m0.id := by simpa using hv
          rw [hid]
        · rw [if_neg hv]
      unfold mapGet at h1 h2
      rw [find?_map_pres _ _ hpres, h1] at h2
      simp only [Option.map_some'] at h2
      have h2' : (if m.id == m0.id then ({ m0 with isRead := true } : Message) else m)
          = m' := Option.some.inj h2
      by_cases hm : (m.id == m0.id) = true
      · rw [if_pos hm] at h2'
        rw [← h2']
      · rw [if_neg hm] at h2'
        rw [← h2']
        exact hread

/-- C6 witness: the reachable store `rstoreC` has its message 1 read;
applying `createUser` leaves it read. -/
theorem read_flag_monotonic_witness :
    ReachableMem rstoreC ∧
    mapGet Message.id rstoreC.messages 1 =
      some { id := 1, senderId := 1, receiverId := 2, content := "hi",
             sentAt := 3, isRead := true } ∧
    mapGet Message.id
        (applyOp rstoreC (StoreOp.createUser ⟨"bob", "pw", "Bob"⟩) 9).messages 1 =
      some { id := 1, senderId := 1, receiverId := 2, content := "hi",
             sentAt := 3, isRead := true } ∧
    ({ id := 1, senderId := 1, receiverId := 2, content := "hi",
       sentAt := 3, isRead := true } : Message).isRead = true := by
  have hreach : ReachableMem rstoreC :=
    ReachableMem.step rstoreB (StoreOp.markMessageAsRead 1) 4
      (ReachableMem.step rstoreA (StoreOp.createMessage ⟨1, 2, "hi"⟩) 3
        (ReachableMem.step initMem (StoreOp.createUser ⟨"alice", "pw", "Alice"⟩) 0
          ReachableMem.init))
  refine ⟨hreach, by decide, by decide, ?_⟩
  exact read_flag_monotonic rstoreC hreach (StoreOp.createUser ⟨"bob", "pw", "Bob"⟩) 9 1
    { id := 1, senderId := 1, receiverId := 2, content := "hi",
      sentAt := 3, isRead := true }
    { id := 1, senderId := 1, receiverId := 2, content := "hi",
      sentAt := 3, isRead := true }
    (by decide) (by decide) (by decide)

theorem recentEntryFor_key (s : MemStorage) (u cid : Nat) (e : User × Message)
    (h : recentEntryFor s u cid = some e) : e.1.id = cid := by
  unfold recentEntryFor at h
  split at h
  · exact Option.noConfusion h
  · rename_i contact heq
    split at h
    · exact Option.noConfusion h
    · rename_i lm rest heq2
      cases h
      exact (mapGet_key User.id s.users cid contact heq).1

theorem recentEntryFor_sound (s : MemStorage) (u cid : Nat) (e : User × Message)
    (h : recentEntryFor s u cid = some e) :
    memGetUser s e.1.id = some e.1 ∧ e.2 ∈ s.messages ∧ involves u e.2 = true ∧
    partnerOf u e.2 = e.1.id ∧
    (∀ m ∈ s.messages, involves u m = true → partnerOf u m = e.1.id →
      m.sentAt ≤ e.2.sentAt) := by
  unfold recentEntryFor at h
  split at h
  · exact Option.noConfusion h
  · rename_i contact heq
    split at h
    · exact Option.noConfusion h
    · rename_i lm rest heq2
      cases h
      have hkey : contact.id = cid := (mapGet_key User.id s.users cid contact heq).1
      have hlm_msgs : lm ∈ (recentUserMessages s u).filter
          (fun m => partnerOf u m == cid) := by
        have hmem : lm ∈ sortDescBy Message.sentAt
            ((recentUserMessages s u).filter (fun m => partnerOf u m == cid)) := by
          rw [heq2]
          exact List.mem_cons_self lm rest
        exact (mem_sortDescBy _ _ lm).mp hmem
      have hlm1 : lm ∈ recentUserMessages s u := (List.mem_filter.mp hlm_msgs).1
      have hlm_part : partnerOf u lm = cid := by
        have := (List.mem_filter.mp hlm_msgs).2
        simpa using this
      have hlm_sm : lm ∈ s.messages := (List.mem_filter.mp hlm1).1
      have hlm_inv : involves u lm = true := (List.mem_filter.mp hlm1).2
      refine ⟨?_, hlm_sm, hlm_inv, ?_, ?_⟩
      · show memGetUser s contact.id = some contact
        rw [hkey]
        exact heq
      · show partnerOf u lm = contact.id
        rw [hkey]
        exact hlm_part
      · intro m hm hinv hpart
        have hcid : partnerOf u m = cid := by
          rw [← hkey]
          exact hpart
        have hm_f : m ∈ (recentUserMessages s u).filter
            (fun m => partnerOf u m == cid) := by
          rw [List.mem_filter]
          exact ⟨List.mem_filter.mpr ⟨hm, hinv⟩, by simp [hcid]⟩
        have hm_sorted : m ∈ lm :: rest := by
          rw [← heq2]
          exact (mem_sortDescBy _ _ m).mpr hm_f
        have hpw := pairwise_sortDescBy Message.sentAt
          ((recentUserMessages s u).filter (fun m => partnerOf u m == cid))
        rw [heq2, List.pairwise_cons] at hpw
        rcases List.mem_cons.mp hm_sorted with h | hmr
        · rw [h]
        · exact hpw.1 m hmr

theorem recentEntryFor_complete (s : MemStorage) (u p : Nat) (contact : User)
    (msg : Message) (hg : memGetUser s p = some contact)
    (hmsg : msg ∈ s.messages) (hinv : involves u msg = true)
    (hpart : partnerOf u msg = p) :
    ∃ lm, recentEntryFor s u p = some (contact, lm) := by
  unfold recentEntryFor
  rw [hg]
  have hmem : msg ∈ (recentUserMessages s u).filter
      (fun m => partnerOf u m == p) := by
    rw [List.mem_filter]
    exact ⟨List.mem_filter.mpr ⟨hmsg, hinv⟩, by simp [hpart]⟩
  cases hs : sortDescBy Message.sentAt
      ((recentUserMessages s u).filter (fun m => partnerOf u m == p)) with
  | nil =>
    exfalso
    have hin := (mem_sortDescBy Message.sentAt
      ((recentUserMessages s u).filter (fun m => partnerOf u m == p)) msg).mpr hmem
    rw [hs] at hin
    exact absurd hin (List.not_mem_nil msg)
  | cons lm rest => exact ⟨lm, rfl⟩

theorem nodup_keys_filterMap (f : Nat → Option (User × Message))
    (hf : ∀ cid e, f cid = some e → e.1.id = cid) :
    ∀ P : List Nat, P.Nodup → ((P.filterMap f).map (fun e => e.1.id)).Nodup := by
  intro P
  induction P with
  | nil => intro _; simp
  | cons p ps ih =>
    intro hnd
    rw [List.nodup_cons] at hnd
    rw [List.filterMap_cons]
    cases hfp : f p with
    | none => exact ih hnd.2
    | some e =>
      rw [List.map_cons, List.nodup_cons]
      refine ⟨?_, ih hnd.2⟩
      intro hmem
      obtain ⟨e', he', hid⟩ := List.mem_map.mp hmem
      obtain ⟨cid, hcid, hfe⟩ := List.mem_filterMap.mp he'
      have h1 : e.1.id = p := hf p e hfp
      have h2 : e'.1.id = cid := hf cid e' hfe
      apply hnd.1
      rw [← h1, ← hid, h2]
      exact hcid

/-- C4 counterexample: `storeABmsg` has no contact edges at all, yet
`getRecentConversations` for user 1 returns an entry — for user 2, a
conversation partner who is not a contact — so entries are not produced
per contact edge and non-contact partners are not omitted. -/
theorem recentConversations_include_non_contacts :
    storeABmsg.contacts = [] ∧
    memGetRecentConversations storeABmsg 1 =
      [({ id := 2, username := "bob", password := "pw", displayName := "Bob",
          avatar := none, isOnline := false, lastSeen := 0 },
        { id := 1, senderId := 1, receiverId := 2, content := "hi", sentAt := 3,
          isRead := false })] := by
  decide

/-- C4 amended: `MemStorage.getRecentConversations` returns one entry per
distinct conversation partner that exists as a user and has message
history with the user — whether or not a contact edge exists — where each
entry's `lastMessage` is a message exchanged with that partner of maximal
`sentAt`, the sequence is ordered by descending `lastMessage.sentAt`, and
every existing user with message history gets an entry. -/
theorem recentConversations_by_partner :
    ∀ (s : MemStorage) (u : Nat),
    (memGetRecentConversations s u).Pairwise (fun a b => b.2.sentAt ≤ a.2.sentAt) ∧
    (∀ e ∈ memGetRecentConversations s u,
      memGetUser s e.1.id = some e.1 ∧ e.2 ∈ s.messages ∧ involves u e.2 = true ∧
      partnerOf u e.2 = e.1.id ∧
      (∀ m ∈ s.messages, involves u m = true → partnerOf u m = e.1.id →
        m.sentAt ≤ e.2.sentAt)) ∧
    ((memGetRecentConversations s u).map (fun e => e.1.id)).Nodup ∧
    (∀ p contact, memGetUser s p = some contact →
      (∃ msg ∈ s.messages, involves u msg = true ∧ partnerOf u msg = p) →
      ∃ e ∈ memGetRecentConversations s u, e.1 = contact) := by
  intro s u
  refine ⟨?_, ?_, ?_, ?_⟩
  · exact pairwise_sortDescBy (fun e : User × Message => e.2.sentAt)
      (recentEntries s u)
  · intro e he
    have he2 : e ∈ recentEntries s u :=
      (mem_sortDescBy (fun e : User × Message => e.2.sentAt)
        (recentEntries s u) e).mp he
    obtain ⟨cid, _, hf⟩ := List.mem_filterMap.mp he2
    exact recentEntryFor_sound s u cid e hf
  · have h1 : ((recentEntries s u).map (fun e => e.1.id)).Nodup := by
      apply nodup_keys_filterMap (recentEntryFor s u)
        (fun cid e hf => recentEntryFor_key s u cid e hf)
      exact nodup_firstDedup _
    have hperm := (perm_sortDescBy (fun e : User × Message => e.2.sentAt)
      (recentEntries s u)).map (fun e : User × Message => e.1.id)
    exact hperm.nodup_iff.mpr h1
  · intro p contact hg hex
    obtain ⟨msg, hmsg, hinv, hpart⟩ := hex
    obtain ⟨lm, hlm⟩ := recentEntryFor_complete s u p contact msg hg hmsg hinv hpart
    have hp : p ∈ firstDedup ((recentUserMessages s u).map (partnerOf u)) := by
      rw [mem_firstDedup]
      exact List.mem_map.mpr ⟨msg, List.mem_filter.mpr ⟨hmsg, hinv⟩, hpart⟩
    have hmem : (contact, lm) ∈ recentEntries s u :=
      List.mem_filterMap.mpr ⟨p, hp, hlm⟩
    exact ⟨(contact, lm),
      (mem_sortDescBy (fun e : User × Message => e.2.sentAt)
        (recentEntries s u) (contact, lm)).mpr hmem, rfl⟩
